import Mathlib

/-
Verification of the virtual-memory core (MP4): the contiguous frame
allocator (cont_frame_pool.C), the page-table fault handler and page
freeing (page_table.C), and the virtual-memory region tracker (vm_pool.C).
The C code is shallowly embedded: the two-bit-per-frame bitmap becomes a
list of bytes (naturals below 256), unsigned long arithmetic is modelled
on Nat with an explicit reduction modulo 2^32 wherever the C value could
wrap, and fatal assertions become explicit result constructors carrying
the state at the moment of failure.
-/

namespace VMCore

/-- The two-bit frame states of ContFramePool (cont_frame_pool.H):
Free is encoded 0b00, Used 0b01, HoS (head of sequence) 0b11. -/
inductive FrameState
| Free
| Used
| HoS
deriving DecidableEq, Repr

/-- Decoding of a two-bit mask result, from ContFramePool::get_state:
0b00 gives Free, 0b01 Used, 0b11 HoS; the unhandled pattern 0b10 falls
through to the initial value Used of state_output. -/
def state_of_mask (mask_result : Nat) : FrameState :=
if mask_result = 0 then FrameState.Free
else if mask_result = 1 then FrameState.Used
else if mask_result = 3 then FrameState.HoS
else FrameState.Used

/-- ContFramePool::get_state: the byte at row frame_no / 4 is shifted by
column (frame_no % 4) * 2 and masked with 0b11. -/
def get_state (bitmap : List Nat) (frame_no : Nat) : FrameState :=
state_of_mask ((bitmap.getD (frame_no / 4) 0 >>> (frame_no % 4 * 2)) % 4)

/-- The byte update of ContFramePool::set_state: Free clears the two bits
with an and-not mask (truncated to the unsigned char width), Used xors in
0b01, HoS xors in 0b11. -/
def write_state_bits (b col : Nat) : FrameState → Nat
| FrameState.Free => b &&& (255 ^^^ (3 <<< col))
| FrameState.Used => b ^^^ (1 <<< col)
| FrameState.HoS => b ^^^ (3 <<< col)

/-- ContFramePool::set_state: rewrites the two bits of frame_no inside its
bitmap byte. -/
def set_state (bitmap : List Nat) (frame_no : Nat) (s : FrameState) : List Nat :=
bitmap.set (frame_no / 4) (write_state_bits (bitmap.getD (frame_no / 4) 0) (frame_no % 4 * 2) s)

theorem getD_set_self (l : List Nat) (i a : Nat) (h : i < l.length) :
    (l.set i a).getD i 0 = a := by
  induction l generalizing i with
  | nil => simp at h
  | cons x xs ih =>
    cases i with
    | zero => rfl
    | succ n => simpa using ih n (by simpa using h)

theorem getD_lt_of_mem (l : List Nat) (i : Nat) (h : i < l.length)
    (hb : ∀ b ∈ l, b < 256) : l.getD i 0 < 256 := by
  induction l generalizing i with
  | nil => simp at h
  | cons x xs ih =>
    cases i with
    | zero => exact hb x (by simp)
    | succ n =>
      simpa using ih n (by simpa using h) (fun b hm => hb b (by simp [hm]))

set_option maxRecDepth 8192 in
theorem state_roundtrip_byte : ∀ b : Nat, b < 256 → ∀ j : Nat, j < 4 →
    (state_of_mask ((b >>> (j * 2)) % 4) = FrameState.Free →
      state_of_mask ((write_state_bits b (j * 2) FrameState.Used >>> (j * 2)) % 4) = FrameState.Used ∧
      state_of_mask ((write_state_bits b (j * 2) FrameState.HoS >>> (j * 2)) % 4) = FrameState.HoS) ∧
    state_of_mask ((write_state_bits b (j * 2) FrameState.Free >>> (j * 2)) % 4) = FrameState.Free := by
  decide

theorem get_state_set_state (bitmap : List Nat) (f : Nat) (s : FrameState)
    (hf : f / 4 < bitmap.length) :
    get_state (set_state bitmap f s) f =
      state_of_mask ((write_state_bits (bitmap.getD (f / 4) 0) (f % 4 * 2) s >>> (f % 4 * 2)) % 4) := by
  unfold get_state set_state
  rw [getD_set_self bitmap (f / 4) _ hf]

/-- Claim C9: for a frame f inside the bitmap whose state is Free,
set_state f Used then get_state f returns Used, and set_state f HoS then
get_state f returns HoS; and from any state, set_state f Free then
get_state f returns Free. -/
theorem set_state_get_state_roundtrip (bitmap : List Nat) (f : Nat)
    (hb : ∀ b ∈ bitmap, b < 256) (hf : f / 4 < bitmap.length) :
    (get_state bitmap f = FrameState.Free →
      get_state (set_state bitmap f FrameState.Used) f = FrameState.Used ∧
      get_state (set_state bitmap f FrameState.HoS) f = FrameState.HoS) ∧
    get_state (set_state bitmap f FrameState.Free) f = FrameState.Free := by
  have hbyte : bitmap.getD (f / 4) 0 < 256 := getD_lt_of_mem bitmap (f / 4) hf hb
  have h4 : f % 4 < 4 := Nat.mod_lt _ (by norm_num)
  have key := state_roundtrip_byte (bitmap.getD (f / 4) 0) hbyte (f % 4) h4
  rw [get_state_set_state bitmap f FrameState.Used hf,
      get_state_set_state bitmap f FrameState.HoS hf,
      get_state_set_state bitmap f FrameState.Free hf]
  simp only [get_state]
  exact key

theorem set_state_get_state_roundtrip_wit :
    (get_state [0] 0 = FrameState.Free →
      get_state (set_state [0] 0 FrameState.Used) 0 = FrameState.Used ∧
      get_state (set_state [0] 0 FrameState.HoS) 0 = FrameState.HoS) ∧
    get_state (set_state [0] 0 FrameState.Free) 0 = FrameState.Free :=
  set_state_get_state_roundtrip [0] 0 (by decide) (by decide)

/-- A ContFramePool instance: base frame number, total frame count, the
free-frame counter and the bitmap bytes (one byte covers four frames). -/
structure CFP where
  base_frame_no : Nat
  nframes : Nat
  nFreeFrames : Nat
  bitmap : List Nat
deriving DecidableEq, Repr

/-- Outcome of an operation that can hit a fatal assertion: the carried
pool is the state at the moment the outcome is produced. -/
inductive ReleaseResult
| ok (bm : List Nat) (nFreeFrames : Nat)
| fatal (bm : List Nat) (nFreeFrames : Nat)
deriving DecidableEq, Repr

/-- The forward walk of ContFramePool::release_frame_range: it continues
while the state read at the pool-relative index (index - base) is not
Free, clearing the frame and incrementing the free counter as it goes.
Two source peculiarities are kept: the write goes to the absolute index
while the read uses the relative one, and the loop stops only at a Free
frame, not at a HoS frame. The C loop has no bound of its own and would
read past the bitmap if no Free frame followed; the embedding cuts it off
with the given fuel, which callers set to the whole bitmap capacity. -/
def release_loop (base : Nat) (bm : List Nat) (nfree index : Nat) : Nat → List Nat × Nat
| 0 => (bm, nfree)
| fuel + 1 =>
  if get_state bm (index - base) = FrameState.Free then (bm, nfree)
  else release_loop base (set_state bm index FrameState.Free) ((nfree + 1) % 2 ^ 32) (index + 1) fuel

/-- ContFramePool::release_frame_range: requires the released frame to be
in state HoS (fatal otherwise), clears it, then runs the forward walk
from the next frame. -/
def release_frame_range (base : Nat) (bm : List Nat) (nfree first : Nat) : ReleaseResult :=
if get_state bm (first - base) = FrameState.HoS then
  let r := release_loop base (set_state bm first FrameState.Free) ((nfree + 1) % 2 ^ 32)
    (first + 1) (4 * bm.length)
  ReleaseResult.ok r.1 r.2
else ReleaseResult.fatal bm nfree

/-- The scan loop of ContFramePool::get_frames: index runs while the
remaining count (nframes - index) is positive; a Free frame starts or
extends the current run, any other state resets the run counter; the
scan stops with the run start as soon as the run length reaches n. -/
def find_loop (bm : List Nat) (n start count : Nat) : Nat → Nat → Option Nat
| _, 0 => none
| index, rem + 1 =>
  if get_state bm index = FrameState.Free then
    if count + 1 = n then some (if count = 0 then index else start)
    else find_loop bm n (if count = 0 then index else start) (count + 1) (index + 1) rem
  else find_loop bm n start 0 (index + 1) rem

/-- The marking loop of ContFramePool::get_frames: the first frame of the
run becomes HoS, the rest become Used; the fuel is the run length. -/
def mark_from (bm : List Nat) (start index : Nat) : Nat → List Nat
| 0 => bm
| fuel + 1 =>
  mark_from (set_state bm index (if index = start then FrameState.HoS else FrameState.Used))
    start (index + 1) fuel

/-- Outcome of ContFramePool::get_frames. -/
inductive GetFramesResult
| fatal (p : CFP)
| ok (p : CFP) (frame_no : Nat)
deriving DecidableEq, Repr

/-- ContFramePool::get_frames: fails fatally up front when the request
exceeds the free counter or the pool size, before touching any state;
otherwise scans for the first run of n Free frames, and on success marks
it (head HoS, rest Used), subtracts n from the free counter and returns
the absolute frame number of the run head; a failed scan is fatal with
the pool untouched (the scan itself never writes). -/
def get_frames (p : CFP) (n : Nat) : GetFramesResult :=
if n > p.nFreeFrames ∨ n > p.nframes then GetFramesResult.fatal p
else
  match find_loop p.bitmap n 0 0 0 p.nframes with
  | some start =>
      GetFramesResult.ok
        { p with bitmap := mark_from p.bitmap start start n,
                 nFreeFrames := p.nFreeFrames - n }
        (start + p.base_frame_no)
  | none => GetFramesResult.fatal p

/-- Outcome of ContFramePool::mark_inaccessible. -/
inductive MarkResult
| fatal (p : CFP)
| ok (p : CFP)
deriving DecidableEq, Repr

/-- The loop of ContFramePool::mark_inaccessible over absolute indices
[b, b + n): a Free frame is marked (HoS at b, Used after) and the free
counter decremented with the unsigned wrap of the source type; a frame in
any other state is silently skipped — the corresponding else branch with
its fatal assertion is compiled only under DEBUG, which the build leaves
undefined. -/
def mi_loop (pbase : Nat) (bm : List Nat) (nfree b index : Nat) : Nat → List Nat × Nat
| 0 => (bm, nfree)
| fuel + 1 =>
  if get_state bm (index - pbase) = FrameState.Free then
    mi_loop pbase
      (set_state bm (index - pbase) (if index = b then FrameState.HoS else FrameState.Used))
      ((nfree + (2 ^ 32 - 1)) % 2 ^ 32) b (index + 1) fuel
  else mi_loop pbase bm nfree b (index + 1) fuel

/-- ContFramePool::mark_inaccessible: fatal when the requested absolute
range leaves the pool range; otherwise runs the marking loop and returns
normally. Both sums of the guard, b + n and pool base + pool size, are
computed in the 32-bit unsigned source type and wrap accordingly, and
the loop bound is the same wrapped sum b + n: the loop runs from index b
while index is below it, so a wrapping b + n makes the bound fall at or
below b and the body run zero times — the iteration count is the wrapped
bound minus b, truncated at zero. -/
def mark_inaccessible (p : CFP) (b n : Nat) : MarkResult :=
if (b + n) % 2 ^ 32 > (p.base_frame_no + p.nframes) % 2 ^ 32 ∨ b < p.base_frame_no then
  MarkResult.fatal p
else
  MarkResult.ok
    { p with
        bitmap :=
          (mi_loop p.base_frame_no p.bitmap p.nFreeFrames b b ((b + n) % 2 ^ 32 - b)).1,
        nFreeFrames :=
          (mi_loop p.base_frame_no p.bitmap p.nFreeFrames b b ((b + n) % 2 ^ 32 - b)).2 }

/-- Claim C2, behaviour at the failing input: in a pool at base 0 whose
bitmap byte 55 encodes the frames HoS, Used, HoS, Free, releasing head
frame 0 does not stop at frame 2 — the head of the next run — but clears
it too and keeps walking, ending with every frame Free and the free
counter raised by 3 instead of 2. The in-file contract of release_frames
says the walk stops at the first frame that is Free or head-of-sequence. -/
theorem release_frame_range_overruns_next_head :
    get_state [55] 2 = FrameState.HoS ∧
    release_frame_range 0 [55] 1 0 = ReleaseResult.ok [0] 4 ∧
    get_state [0] 2 = FrameState.Free := by
  decide

/-- Claim C6: a request for more frames than the free counter holds fails
fatally and returns the pool unchanged — no bitmap write, no counter
change. -/
theorem get_frames_exhausted_fatal_unchanged (p : CFP) (n : Nat) (h : n > p.nFreeFrames) :
    get_frames p n = GetFramesResult.fatal p := by
  unfold get_frames
  rw [if_pos (Or.inl h)]

theorem get_frames_exhausted_fatal_unchanged_wit :
    (2 : Nat) > (CFP.mk 0 8 1 [0, 0]).nFreeFrames ∧
    get_frames (CFP.mk 0 8 1 [0, 0]) 2 = GetFramesResult.fatal (CFP.mk 0 8 1 [0, 0]) :=
  ⟨by decide, get_frames_exhausted_fatal_unchanged (CFP.mk 0 8 1 [0, 0]) 2 (by decide)⟩

/-- Claim C7, counterexample: in a pool of 8 frames at base 0 whose frame
1 is Used (bitmap bytes 4, 0), mark_inaccessible over frames 0..1 is
claimed to fail because the range overlaps a non-free frame; the code
instead succeeds, marks only frame 0 and silently skips frame 1. -/
theorem mark_inaccessible_overlap_not_fatal :
    get_state [4, 0] 1 = FrameState.Used ∧
    mark_inaccessible (CFP.mk 0 8 7 [4, 0]) 0 2 = MarkResult.ok (CFP.mk 0 8 6 [7, 0]) := by
  decide

/-- Claim C7 as amended: for calls whose 32-bit sums do not wrap — the
requested bound b + n and the pool bound base + size both below 2^32 —
mark_inaccessible fails exactly when the frame range falls outside the
pool range; frames inside the range that are already non-free never
cause a failure (they are skipped). -/
theorem mark_inaccessible_fatal_iff_out_of_range (p : CFP) (b n : Nat)
    (h1 : b + n < 2 ^ 32) (h2 : p.base_frame_no + p.nframes < 2 ^ 32) :
    mark_inaccessible p b n = MarkResult.fatal p ↔
      (b + n > p.base_frame_no + p.nframes ∨ b < p.base_frame_no) := by
  unfold mark_inaccessible
  rw [Nat.mod_eq_of_lt h1, Nat.mod_eq_of_lt h2]
  by_cases h : b + n > p.base_frame_no + p.nframes ∨ b < p.base_frame_no
  · simp [h]
  · simp [h]

theorem mark_inaccessible_fatal_iff_out_of_range_wit :
    (0 : Nat) + 1 < 2 ^ 32 ∧
    (CFP.mk 4 8 8 [0, 0]).base_frame_no + (CFP.mk 4 8 8 [0, 0]).nframes < 2 ^ 32 ∧
    (mark_inaccessible (CFP.mk 4 8 8 [0, 0]) 0 1 = MarkResult.fatal (CFP.mk 4 8 8 [0, 0]) ↔
      (0 + 1 > (CFP.mk 4 8 8 [0, 0]).base_frame_no + (CFP.mk 4 8 8 [0, 0]).nframes ∨
        0 < (CFP.mk 4 8 8 [0, 0]).base_frame_no)) :=
  ⟨by decide, by decide,
    mark_inaccessible_fatal_iff_out_of_range (CFP.mk 4 8 8 [0, 0]) 0 1 (by decide) (by decide)⟩

/-- A region descriptor of the VMPool directory: base linear address and
length in bytes. -/
structure AllocRegionInfo where
  base_address : Nat
  length : Nat
deriving DecidableEq, Repr

/-- A VMPool instance: declared window (base address and size), the live
region directory entries in slot order (slot 0 is the directory page
itself), and the available-space counter. -/
structure VMPool where
  base_address : Nat
  size : Nat
  vm_regions : List AllocRegionInfo
  available_memory : Nat
deriving DecidableEq, Repr

/-- VMPool::is_legitimate: false when the address is below the base or
above base + size computed in the 32-bit unsigned type, true otherwise.
The region directory plays no part in the answer. -/
def is_legitimate (p : VMPool) (address : Nat) : Bool :=
if address < p.base_address ∨ address > (p.base_address + p.size) % 2 ^ 32 then false else true

/-- The VMPool constructor: stores the window, writes region 0 as the
directory page itself (the pool base, one page long), and subtracts one
page from available_memory. The constructor never assigns size (or
anything else) to available_memory first, so the subtraction acts on
whatever value the member held at entry; avail_init models that prior
value, and the subtraction wraps in the 32-bit unsigned type. -/
def vmpool_construct (B S avail_init : Nat) : VMPool :=
{ base_address := B, size := S,
  vm_regions := [AllocRegionInfo.mk B 4096],
  available_memory := (avail_init + (2 ^ 32 - 4096)) % 2 ^ 32 }

/-- The search loop of VMPool::release: indices 1 to num_regions - 1 are
scanned in order and region_no keeps the last index whose base address
equals the argument; none models the C value -1 when nothing matches. -/
def find_region (regions : List AllocRegionInfo) (start : Nat) : Option Nat :=
(List.range regions.length).foldl
  (fun acc ind =>
    if 1 ≤ ind ∧ (regions.getD ind (AllocRegionInfo.mk 0 0)).base_address = start then some ind
    else acc)
  none

/-- VMPool::release, at the granularity of the directory and the
bookkeeping. When no region matches, the C code indexes the directory at
-1, which has no defined meaning; the embedding returns none there. On a
match at slot r: the page count is read from slot r before anything
moves; each later entry is then copied one slot down and the slot count
drops by one, which leaves the live directory equal to the old one with
slot r removed (the entry one past the live end — modelled by the
parameter g — transits through the last slot but is dropped with it);
only then is available_memory incremented, reading the length now
sitting in slot r, that is the length of the old slot r + 1 (or of g
when r was the last slot). The returned number is how many pages are
handed to free_page. -/
def vmpool_release (p : VMPool) (g : AllocRegionInfo) (start : Nat) : Option (VMPool × Nat) :=
match find_region p.vm_regions start with
| none => none
| some r =>
    some
      ({ p with
          vm_regions := p.vm_regions.eraseIdx r,
          available_memory :=
            (p.available_memory + (p.vm_regions.getD (r + 1) g).length) % 2 ^ 32 },
        (p.vm_regions.getD r (AllocRegionInfo.mk 0 0)).length / 4096)

/-- The validation loop of PageTable::handle_fault: the cursor stops on
the first pool that reports the address legitimate, setting the flag;
when every pool declines, the cursor has run off the list and is null
while the flag stays clear. The pair is (final cursor, present_flag). -/
def vm_pool_walk : List VMPool → Nat → Option VMPool × Bool
| [], _ => (none, false)
| p :: ps, addr => if is_legitimate p addr = true then (some p, true) else vm_pool_walk ps addr

/-- Outcomes of PageTable::handle_fault: a fault whose error code has the
present bit set is not serviced; the invalid-address assertion;
installing a fresh page table plus a page (two frames drawn from the
process pool); installing a page under an existing table (one frame). -/
inductive FaultOutcome
| noAction
| fatalInvalid
| installedTableAndPage (frames_allocated : Nat)
| installedPage (frames_allocated : Nat)
deriving DecidableEq, Repr

/-- PageTable::handle_fault at the granularity the claims need: the body
runs only when bit 0 of the error code is clear; the validation walk is
followed by the fatality test (cursor non-null and flag clear), exactly
as written in the source; then the handler installs a table and a page
(allocating twice) when the directory entry is absent, or just a page
(allocating once) when it is present. -/
def handle_fault (err_code fault_addr : Nat) (pools : List VMPool) (pde_present : Bool) : FaultOutcome :=
if err_code % 2 ≠ 0 then FaultOutcome.noAction
else
  if (vm_pool_walk pools fault_addr).1.isSome ∧ (vm_pool_walk pools fault_addr).2 = false then
    FaultOutcome.fatalInvalid
  else if pde_present = false then FaultOutcome.installedTableAndPage 2
  else FaultOutcome.installedPage 1

/-- PageTable::free_page restricted to the table entry it edits: the
address decomposition and the recursive-mapping access path are
abstracted to the index of the entry inside its table; the frame-number
extraction and the final entry update are bit-exact. The result is the
frame number handed to release_frames together with the updated table. -/
def free_page (page_table : List Nat) (page_table_ind : Nat) : Nat × List Nat :=
((page_table.getD page_table_ind 0 &&& 0xFFFFF000) / 4096,
  page_table.set page_table_ind (page_table.getD page_table_ind 0 ||| 2))

/-- Claim C1, behaviour at the failing input: one pool is registered
(window base 5242880, size 4096) and the faulting address 268435456 is
legitimate in no registered pool, yet handle_fault on a not-present fault
does not fail — the validation cursor has run off the list, so the
fatality test (cursor non-null and flag clear) is unsatisfiable — and
the handler proceeds to install a table and a page, allocating two
frames from the process pool. -/
theorem handle_fault_invalid_address_not_fatal :
    (∀ q ∈ [VMPool.mk 5242880 4096 [] 0], is_legitimate q 268435456 = false) ∧
    handle_fault 0 268435456 [VMPool.mk 5242880 4096 [] 0] false =
      FaultOutcome.installedTableAndPage 2 := by
  decide

/-- Claim C10: with no VMPool registered, a not-present fault is never
rejected: the handler proceeds to install the missing structures — a
table and a page when the directory entry is absent, a page alone when
it is present. -/
theorem handle_fault_no_pools_proceeds (err addr : Nat) (pde : Bool) (h : err % 2 = 0) :
    handle_fault err addr [] pde =
      (if pde then FaultOutcome.installedPage 1 else FaultOutcome.installedTableAndPage 2) := by
  unfold handle_fault
  rw [if_neg (by omega)]
  cases pde <;> simp [vm_pool_walk]

theorem handle_fault_no_pools_proceeds_wit :
    (0 : Nat) % 2 = 0 ∧
    handle_fault 0 42 [] false =
      (if false then FaultOutcome.installedPage 1 else FaultOutcome.installedTableAndPage 2) :=
  ⟨rfl, handle_fault_no_pools_proceeds 0 42 false rfl⟩

/-- Claim C3, behaviour at the failing input: the table holds one mapped
entry 1220609 (frame bits 298, present bit set, writable bit clear).
free_page releases frame 298, but the updated entry 1220611 still has
its present bit set — the update ors in 0b10, so the bit that changes is
the writable bit (0 to 1), not the presence bit, while the frame bits
stay 298. -/
theorem free_page_leaves_entry_present :
    free_page [1220609] 0 = (298, [1220611]) ∧
    (1220609 : Nat) % 2 = 1 ∧ (1220611 : Nat) % 2 = 1 ∧
    (1220609 : Nat) / 2 % 2 = 0 ∧ (1220611 : Nat) / 2 % 2 = 1 ∧
    (1220611 : Nat) / 4096 = 298 := by
  decide

/-- Claim C4, behaviour at the failing input: constructing a pool at
base 8388608 with size 1048576, with the uninitialised available_memory
member holding 0 at entry, does write region 0 as the directory page
(base 8388608, length 4096), but leaves available_memory at
2^32 - 4096 — not size minus one page, because the constructor never
assigns size to the member before subtracting. -/
theorem vmpool_construct_available_memory_wrong :
    (vmpool_construct 8388608 1048576 0).vm_regions = [AllocRegionInfo.mk 8388608 4096] ∧
    (vmpool_construct 8388608 1048576 0).available_memory = 2 ^ 32 - 4096 ∧
    (vmpool_construct 8388608 1048576 0).available_memory ≠ 1048576 - 4096 := by
  decide

/-- Claim C5, behaviour at the failing input: the directory holds the
directory page and three regions of lengths 4096, 8192, 12288; releasing
the middle region (base 12288, length 8192) does remove its slot and
close the gap, and hands its two pages to free_page, but the available
counter grows by 12288 — the length of the following region, read from
slot 2 after the shift — instead of the freed 8192. -/
theorem vmpool_release_adds_wrong_length :
    vmpool_release
      (VMPool.mk 4096 65536
        [AllocRegionInfo.mk 4096 4096, AllocRegionInfo.mk 8192 4096,
         AllocRegionInfo.mk 12288 8192, AllocRegionInfo.mk 20480 12288] 100000)
      (AllocRegionInfo.mk 0 0) 12288 =
      some
        (VMPool.mk 4096 65536
          [AllocRegionInfo.mk 4096 4096, AllocRegionInfo.mk 8192 4096,
           AllocRegionInfo.mk 20480 12288] 112288, 2) ∧
    (112288 : Nat) ≠ 100000 + 8192 := by
  decide

/-- Claim C8: for a pool whose window does not wrap the 32-bit address
space, is_legitimate accepts exactly the addresses between the base and
base + size, both bounds inclusive, whatever the region directory
holds. -/
theorem is_legitimate_iff_in_window (p : VMPool) (a : Nat)
    (h : p.base_address + p.size < 2 ^ 32) :
    is_legitimate p a = true ↔ (p.base_address ≤ a ∧ a ≤ p.base_address + p.size) := by
  unfold is_legitimate
  rw [Nat.mod_eq_of_lt h]
  by_cases hc : a < p.base_address ∨ a > p.base_address + p.size
  · rw [if_pos hc]
    simp only [Bool.false_eq_true, false_iff]
    omega
  · rw [if_neg hc]
    simp only [true_iff]
    omega

theorem is_legitimate_iff_in_window_wit :
    (VMPool.mk 4096 8192 [AllocRegionInfo.mk 4096 4096] 0).base_address +
      (VMPool.mk 4096 8192 [AllocRegionInfo.mk 4096 4096] 0).size < 2 ^ 32 ∧
    (is_legitimate (VMPool.mk 4096 8192 [AllocRegionInfo.mk 4096 4096] 0) 12288 = true ↔
      ((VMPool.mk 4096 8192 [AllocRegionInfo.mk 4096 4096] 0).base_address ≤ 12288 ∧
        12288 ≤ (VMPool.mk 4096 8192 [AllocRegionInfo.mk 4096 4096] 0).base_address +
          (VMPool.mk 4096 8192 [AllocRegionInfo.mk 4096 4096] 0).size)) :=
  ⟨by decide, is_legitimate_iff_in_window (VMPool.mk 4096 8192 [AllocRegionInfo.mk 4096 4096] 0)
    12288 (by decide)⟩

end VMCore
